import Mathlib

/-!
Verification of the caching JSON-RPC client
(`packages/hardhat-core/src/internal/hardhat-network/jsonrpc/client.ts`).

The client is shallowly embedded: the in-memory cache (`Map<string, any>`)
becomes an association list, the persistent store read becomes an explicit
fallible function argument, the transport becomes a function from the call
index to an outcome, and thrown JavaScript values become an explicit sum
type distinguishing `Error` instances from other thrown values.  Each
`_perform` / `_performBatch` call is modelled as a pure function returning
the result together with the updated in-memory cache, the persistent-store
writes it performed, and counters of transport calls and decode passes.
-/

set_option autoImplicit false
set_option maxRecDepth 100000

/-- Model of the dynamically typed JSON values that travel through the
client as parameters and raw transport payloads. -/
inductive Json where
  | str (s : String)
  | num (n : Int)
  | bool (b : Bool)
  | null
  | arr (xs : List Json)
  | obj (fields : List (String × Json))

/-- Minimal JSON string escaping, as performed by JSON.stringify on the
string values the client serializes (quotes and backslashes). -/
def escapeJsonChar (c : Char) : String :=
  if c == '"' then "\\\""
  else if c == '\\' then "\\\\"
  else String.mk [c]

/-- Escape a whole string for JSON output. -/
def escapeJsonString (s : String) : String :=
  s.data.foldl (fun acc c => acc ++ escapeJsonChar c) ""

mutual

/-- Model of JSON.stringify on the embedded value universe. -/
def Json.stringify : Json → String
  | .str s => "\"" ++ escapeJsonString s ++ "\""
  | .num n => toString n
  | .bool true => "true"
  | .bool false => "false"
  | .null => "null"
  | .arr xs => "[" ++ Json.stringifyList xs ++ "]"
  | .obj fields => "\x7b" ++ Json.stringifyFields fields ++ "\x7d"

/-- Comma-separated serialization of a list of JSON values. -/
def Json.stringifyList : List Json → String
  | [] => ""
  | [x] => Json.stringify x
  | x :: y :: xs => Json.stringify x ++ "," ++ Json.stringifyList (y :: xs)

/-- Comma-separated serialization of the fields of a JSON object. -/
def Json.stringifyFields : List (String × Json) → String
  | [] => ""
  | [(k, v)] => "\"" ++ escapeJsonString k ++ "\":" ++ Json.stringify v
  | (k, v) :: f :: fs =>
      "\"" ++ escapeJsonString k ++ "\":" ++ Json.stringify v ++ "," ++
        Json.stringifyFields (f :: fs)

end

/-- Does the character list `pat` occur at the head of `s`? -/
def charsStartWith : List Char → List Char → Bool
  | [], _ => true
  | _ :: _, [] => false
  | p :: ps, c :: cs => p == c && charsStartWith ps cs

/-- Substring test modelling JavaScript String.prototype.includes:
`containsSubstr s pat` is true when `pat` occurs somewhere in `s`. -/
def containsSubstr (s pat : String) : Bool :=
  (List.range (s.length + 1)).any (fun i => charsStartWith pat.data (s.data.drop i))

/-- Lower-case hexadecimal rendering of a natural number, as produced by
Buffer.prototype.toString with the hex encoding. -/
def natToHex (n : Nat) : String :=
  (Nat.toDigits 16 n).asString

/-- Modelled from the spec: `createNonCryptographicHashBasedIdentifier`
(from `internal/util/hash`) is not under src.  The spec asks for a
deterministic, non-cryptographic but well-distributed hash of a byte
string; this is a 64-bit FNV-1a-style fold over the code points, with the
word width kept explicit via reduction modulo 2 ^ 64. -/
def strHash (s : String) : Nat :=
  s.data.foldl (fun h c => ((h ^^^ c.toNat) * 1099511628211) % (2 ^ 64))
    14695981039346656037

/-- Thrown JavaScript values reaching the catch blocks of the client:
either an `Error` instance or some other thrown value; both may expose a
message string. -/
inductive JsThrown where
  | errorInstance (message : String)
  | nonError (message : String)
  deriving DecidableEq

/-- Is this thrown value an `Error` instance (`err instanceof Error`)? -/
def JsThrown.isErrorInstance : JsThrown → Bool
  | .errorInstance _ => true
  | .nonError _ => false

/-- The message property of a thrown value. -/
def JsThrown.message : JsThrown → String
  | .errorInstance m => m
  | .nonError m => m

/-- Errors a `_perform` call can propagate to its caller: a value thrown
by the transport, or a decode failure from the schema decoder. -/
inductive ClientError where
  | thrown (err : JsThrown)
  | decodeFailure (msg : String)
  deriving DecidableEq

/-- Construction parameters of `JsonRpcClient`, together with the
configured endpoint address (`HttpProvider.url`) consulted by the retry
heuristic. -/
structure ClientConfig where
  networkId : Nat
  latestBlockNumberOnCreation : Int
  maxReorg : Int
  forkCachePath : Option String
  url : String

/-- Outcome of one `_perform` (or `_performBatch`) call: the returned or
thrown value, the in-memory cache afterwards, the disk-folder-created
flag, the persistent-store writes performed (key and raw payload), and
how many transport calls and decode passes happened. -/
structure PerformOutcome (V : Type) where
  result : Except ClientError V
  cache : List (String × V)
  folderCreated : Bool
  diskWrites : List (String × Json)
  transportCalls : Nat
  decodeCalls : Nat

/-- The marker substring identifying the known-flaky provider in
`_shouldRetry`. -/
def infuraMarker : String := "infura"

/-- The transient failure message `_shouldRetry` looks for. -/
def headerNotFoundMarker : String := "header not found"

namespace JsonRpcClient

/-- Embeds `_getCacheKey`: build the plaintext
"networkId method JSON.stringify(params)" and hash it, rendering the
digest in hexadecimal. -/
def getCacheKey (networkId : Nat) (method : String) (params : List Json) : String :=
  let plaintextKey := toString networkId ++ " " ++ method ++ " " ++ Json.stringify (.arr params)
  natToHex (strHash plaintextKey)

/-- Embeds `_getBatchCacheKey`: fold the batch, concatenating member
method names and flattening member parameter lists in sequence order,
then derive the single-call key of the combined request. -/
def getBatchCacheKey (networkId : Nat) (batch : List (String × List Json)) : String :=
  let fakeMethod := batch.foldl (fun acc entry => acc ++ entry.1) ""
  let fakeParams := batch.foldl (fun acc entry => acc ++ entry.2) ([] : List Json)
  getCacheKey networkId fakeMethod fakeParams

/-- Embeds `_getFromCache`: lookup in the in-memory map. -/
def getFromCache {V : Type} (cache : List (String × V)) (cacheKey : String) : Option V :=
  match cache.find? (fun p => p.1 == cacheKey) with
  | some p => some p.2
  | none => none

/-- Embeds `_storeInCache`: `Map.set`, modelled by prepending so that the
most recent binding for a key is the one `getFromCache` finds. -/
def storeInCache {V : Type} (cache : List (String × V)) (cacheKey : String) (decodedResult : V) :
    List (String × V) :=
  (cacheKey, decodedResult) :: cache

/-- Embeds `_shouldRetry`: retry only on the first attempt, only for an
endpoint address containing the flaky-provider marker, only for a thrown
`Error` instance, and only when its message contains "header not found". -/
def shouldRetry (isRetryCall : Bool) (url : String) (err : JsThrown) : Bool :=
  !isRetryCall && containsSubstr url infuraMarker && err.isErrorInstance &&
    containsSubstr err.message headerNotFoundMarker

/-- Embeds `_send`: try the transport; on a thrown value, consult
`shouldRetry` and either retry or rethrow.  In the source the retry is a
recursive call with isRetryCall set to true; since `shouldRetry` is
definitionally false on a retry call (see `shouldRetry_retryCall_false`),
that recursive call is inlined here as a single further transport call
whose outcome, success or failure, is final.  The second component counts
the transport calls made. -/
def send (url : String) (transport : Nat → Except JsThrown Json) (isRetryCall : Bool)
    (idx : Nat) : Except JsThrown Json × Nat :=
  match transport idx with
  | .ok r => (.ok r, 1)
  | .error err =>
    if shouldRetry isRetryCall url err then
      match transport (idx + 1) with
      | .ok r => (.ok r, 2)
      | .error e => (.error e, 2)
    else
      (.error err, 1)

/-- Embeds `_sendBatch`, identical to `send` but over the batch transport
which yields a list of raw results. -/
def sendBatch (url : String) (transport : Nat → Except JsThrown (List Json))
    (isRetryCall : Bool) (idx : Nat) : Except JsThrown (List Json) × Nat :=
  match transport idx with
  | .ok rs => (.ok rs, 1)
  | .error err =>
    if shouldRetry isRetryCall url err then
      match transport (idx + 1) with
      | .ok rs => (.ok rs, 2)
      | .error e => (.error e, 2)
    else
      (.error err, 1)

/-- Embeds `_isCacheToDiskEnabled`: persistent caching is on exactly when
a fork cache path was configured. -/
def isCacheToDiskEnabled (cfg : ClientConfig) : Bool :=
  cfg.forkCachePath.isSome

/-- Embeds `_canBeReorgedOut`: a block strictly above the height observed
at construction minus the max reorg depth is still reorgable. -/
def canBeReorgedOut (cfg : ClientConfig) (blockNumber : Int) : Bool :=
  blockNumber > cfg.latestBlockNumberOnCreation - cfg.maxReorg

/-- Embeds `_canBeCached`: never cacheable without a block number,
otherwise cacheable exactly when the block cannot be reorged out. -/
def canBeCached (cfg : ClientConfig) : Option Int → Bool
  | none => false
  | some blockNumber => !(canBeReorgedOut cfg blockNumber)

/-- Embeds `_getRawFromDiskCache`: the read is wrapped in a catch that
turns every failure into a miss.  `diskRead` models the fallible
`readJSON`; when no fork cache path is configured the path computation in
the source throws and is caught by the same handler, so the read is a
miss as well. -/
def getRawFromDiskCache (cfg : ClientConfig) (diskRead : String → Except String Json)
    (cacheKey : String) : Option Json :=
  match cfg.forkCachePath with
  | none => none
  | some _ =>
    match diskRead cacheKey with
    | .ok raw => some raw
    | .error _ => none

/-- Embeds `_getFromDiskCache`: a raw disk hit is decoded (a decode
failure propagates as a thrown error, hence the `Except` layer); a miss
yields none. -/
def getFromDiskCache {V : Type} (cfg : ClientConfig) (diskRead : String → Except String Json)
    (cacheKey : String) (decode : Json → Except String V) : Except String (Option V) :=
  match getRawFromDiskCache cfg diskRead cacheKey with
  | some raw => (decode raw).map some
  | none => .ok none

/-- One member of a `_performBatch` request: the method, its parameters,
and the io-ts type of the expected result, modelled by its decoder. -/
structure BatchEntry (V : Type) where
  method : String
  params : List Json
  decode : Json → Except String V

/-- Positional decoding of batch raw results, mirroring
`rawResults.map((result, i) => decode(result, batch[i].tType))`: the
first decode failure aborts; a raw result beyond the batch length would
dereference a missing decoder and is modelled as a failure; missing raw
results simply yield a shorter list, as map over the shorter array does. -/
def decodeAll {V : Type} : List (BatchEntry V) → List Json → Except String (List V)
  | _, [] => .ok []
  | [], _ :: _ => .error ("missing decoder for extra batch result")
  | b :: bs, raw :: raws =>
    match b.decode raw with
    | .error e => .error e
    | .ok v =>
      match decodeAll bs raws with
      | .error e => .error e
      | .ok vs => .ok (v :: vs)

/-- Embeds `_getBatchFromDiskCache`: a raw disk hit that is not an array
is a miss; an array is decoded positionally (failures propagate). -/
def getBatchFromDiskCache {V : Type} (cfg : ClientConfig)
    (diskRead : String → Except String Json) (cacheKey : String)
    (batch : List (BatchEntry V)) : Except String (Option (List V)) :=
  match getRawFromDiskCache cfg diskRead cacheKey with
  | some (.arr raws) => (decodeAll batch raws).map some
  | some _ => .ok none
  | none => .ok none

/-- Embeds `_perform`: derive the key; return an in-memory hit at once
(no transport call, no decode); on a disk hit decode, populate the
in-memory cache and return; otherwise send, decode, and, when the
eligibility policy accepts the maximum affected block number, store the
decoded value in memory and, if persistent caching is enabled, write the
raw payload to disk (creating the folder). -/
def perform {V : Type} (cfg : ClientConfig) (cache : List (String × V))
    (folderCreated : Bool) (diskRead : String → Except String Json)
    (transport : Nat → Except JsThrown Json) (method : String) (params : List Json)
    (decode : Json → Except String V) (getMaxAffectedBlockNumber : V → Option Int) :
    PerformOutcome V :=
  let cacheKey := getCacheKey cfg.networkId method params
  match getFromCache cache cacheKey with
  | some cachedResult =>
    ⟨.ok cachedResult, cache, folderCreated, [], 0, 0⟩
  | none =>
    match getFromDiskCache cfg diskRead cacheKey decode with
    | .error e => ⟨.error (.decodeFailure e), cache, folderCreated, [], 0, 1⟩
    | .ok (some diskCachedResult) =>
      ⟨.ok diskCachedResult, storeInCache cache cacheKey diskCachedResult,
        folderCreated, [], 0, 1⟩
    | .ok none =>
      match send cfg.url transport false 0 with
      | (.error err, n) => ⟨.error (.thrown err), cache, folderCreated, [], n, 0⟩
      | (.ok rawResult, n) =>
        match decode rawResult with
        | .error e => ⟨.error (.decodeFailure e), cache, folderCreated, [], n, 1⟩
        | .ok decodedResult =>
          let blockNumber := getMaxAffectedBlockNumber decodedResult
          if canBeCached cfg blockNumber then
            if isCacheToDiskEnabled cfg then
              ⟨.ok decodedResult, storeInCache cache cacheKey decodedResult, true,
                [(cacheKey, rawResult)], n, 1⟩
            else
              ⟨.ok decodedResult, storeInCache cache cacheKey decodedResult,
                folderCreated, [], n, 1⟩
          else
            ⟨.ok decodedResult, cache, folderCreated, [], n, 1⟩

/-- Embeds `_performBatch`: the whole batch is keyed, looked up, decoded
and cached as one unit; the eligibility policy is evaluated once on the
maximum affected block number of all decoded members. -/
def performBatch {V : Type} (cfg : ClientConfig) (cache : List (String × List V))
    (folderCreated : Bool) (diskRead : String → Except String Json)
    (transportB : Nat → Except JsThrown (List Json)) (batch : List (BatchEntry V))
    (getMaxAffectedBlockNumber : List V → Option Int) : PerformOutcome (List V) :=
  let cacheKey := getBatchCacheKey cfg.networkId (batch.map (fun b => (b.method, b.params)))
  match getFromCache cache cacheKey with
  | some cachedResult =>
    ⟨.ok cachedResult, cache, folderCreated, [], 0, 0⟩
  | none =>
    match getBatchFromDiskCache cfg diskRead cacheKey batch with
    | .error e => ⟨.error (.decodeFailure e), cache, folderCreated, [], 0, 1⟩
    | .ok (some diskCachedResult) =>
      ⟨.ok diskCachedResult, storeInCache cache cacheKey diskCachedResult,
        folderCreated, [], 0, 1⟩
    | .ok none =>
      match sendBatch cfg.url transportB false 0 with
      | (.error err, n) => ⟨.error (.thrown err), cache, folderCreated, [], n, 0⟩
      | (.ok rawResults, n) =>
        match decodeAll batch rawResults with
        | .error e => ⟨.error (.decodeFailure e), cache, folderCreated, [], n, 1⟩
        | .ok decodedResults =>
          if canBeCached cfg (getMaxAffectedBlockNumber decodedResults) then
            if isCacheToDiskEnabled cfg then
              ⟨.ok decodedResults, storeInCache cache cacheKey decodedResults, true,
                [(cacheKey, .arr rawResults)], n, 1⟩
            else
              ⟨.ok decodedResults, storeInCache cache cacheKey decodedResults,
                folderCreated, [], n, 1⟩
          else
            ⟨.ok decodedResults, cache, folderCreated, [], n, 1⟩

/-- Modelled from the spec: `numberToRpcQuantity` (from provider/output)
is not under src; it renders a block number as a 0x-prefixed hexadecimal
quantity string. -/
def numberToRpcQuantity (n : Int) : String :=
  "0x" ++ natToHex n.toNat

/-- Modelled from the spec: the `rpcData` io-ts decoder is not under src;
per the spec it validates a raw value into the domain type, failing with
a descriptive error on shape mismatch; hex data is modelled as the string
itself. -/
def decodeData : Json → Except String String
  | .str s => .ok s
  | _ => .error ("invalid rpc data")

/-- Decoded transaction: only the containing block number (null for a
pending transaction) matters to the caching policy. -/
structure RpcTransaction where
  blockNumber : Option Int
  deriving DecidableEq

/-- Modelled from the spec: `nullable(rpcTransaction)` (from types.ts) is
not under src; per the spec the decoder maps JSON null to an absent
result and validates the shape otherwise. -/
def decodeNullableTransaction : Json → Except String (Option RpcTransaction)
  | .null => .ok none
  | .obj fields =>
    match fields.find? (fun f => f.1 == "blockNumber") with
    | some (_, .num n) => .ok (some ⟨some n⟩)
    | some (_, .null) => .ok (some ⟨none⟩)
    | _ => .error ("invalid transaction")
  | _ => .error ("invalid transaction")

/-- Decoded block: only its own number (null for a pending block) matters
to the caching policy. -/
structure RpcBlock where
  number : Option Int
  deriving DecidableEq

/-- Modelled from the spec: `nullable(rpcBlock)` (from types.ts) is not
under src; JSON null decodes to an absent result. -/
def decodeNullableBlock : Json → Except String (Option RpcBlock)
  | .null => .ok none
  | .obj fields =>
    match fields.find? (fun f => f.1 == "number") with
    | some (_, .num n) => .ok (some ⟨some n⟩)
    | some (_, .null) => .ok (some ⟨none⟩)
    | _ => .error ("invalid block")
  | _ => .error ("invalid block")

/-- Method name of the storage read. -/
def methodGetStorageAt : String := "eth_getStorageAt"

/-- Method name of the transaction lookup. -/
def methodGetTransactionByHash : String := "eth_getTransactionByHash"

/-- Method name of the receipt lookup. -/
def methodGetTransactionReceipt : String := "eth_getTransactionReceipt"

/-- Method name of the block-by-hash lookup. -/
def methodGetBlockByHash : String := "eth_getBlockByHash"

/-- Embeds `getStorageAt`: a storage read at a given block, decoded with
`rpcData`; the affected block number is the queried block number. -/
def getStorageAt (cfg : ClientConfig) (cache : List (String × String))
    (folderCreated : Bool) (diskRead : String → Except String Json)
    (transport : Nat → Except JsThrown Json) (address position : String)
    (blockNumber : Int) : PerformOutcome String :=
  perform cfg cache folderCreated diskRead transport methodGetStorageAt
    [.str address, .str position, .str (numberToRpcQuantity blockNumber)]
    decodeData (fun _ => some blockNumber)

/-- Embeds `getTransactionByHash`: nullable decode, and the affected
block number is the containing block of the transaction when present
(`tx?.blockNumber ?? undefined`). -/
def getTransactionByHash (cfg : ClientConfig)
    (cache : List (String × Option RpcTransaction)) (folderCreated : Bool)
    (diskRead : String → Except String Json) (transport : Nat → Except JsThrown Json)
    (transactionHash : String) : PerformOutcome (Option RpcTransaction) :=
  perform cfg cache folderCreated diskRead transport methodGetTransactionByHash
    [.str transactionHash] decodeNullableTransaction
    (fun tx => match tx with | some t => t.blockNumber | none => none)

/-- Embeds `getTransactionReceipt`: same shape as the transaction lookup
(the receipt decoder is likewise modelled from the spec). -/
def getTransactionReceipt (cfg : ClientConfig)
    (cache : List (String × Option RpcTransaction)) (folderCreated : Bool)
    (diskRead : String → Except String Json) (transport : Nat → Except JsThrown Json)
    (transactionHash : String) : PerformOutcome (Option RpcTransaction) :=
  perform cfg cache folderCreated diskRead transport methodGetTransactionReceipt
    [.str transactionHash] decodeNullableTransaction
    (fun tx => match tx with | some t => t.blockNumber | none => none)

/-- Embeds `getBlockByHash` without transaction bodies: nullable decode,
and the affected block number is the number of the block when present
(`block?.number ?? undefined`). -/
def getBlockByHash (cfg : ClientConfig) (cache : List (String × Option RpcBlock))
    (folderCreated : Bool) (diskRead : String → Except String Json)
    (transport : Nat → Except JsThrown Json) (blockHash : String) :
    PerformOutcome (Option RpcBlock) :=
  perform cfg cache folderCreated diskRead transport methodGetBlockByHash
    [.str blockHash, .bool false] decodeNullableBlock
    (fun block => match block with | some b => b.number | none => none)

end JsonRpcClient

open JsonRpcClient

/-- Client fixture matching the test suite: networkId 1, height 123 at
creation, max reorg depth 3, no persistent cache. -/
def wCfg : ClientConfig := ⟨1, 123, 3, none, "fake"⟩

/-- Same client fixture with a persistent-cache path configured. -/
def wCfgDisk : ClientConfig := ⟨1, 123, 3, some "/tmp/fork-cache", "fake"⟩

/-- A persistent store whose every read fails (file missing). -/
def wNoDisk : String → Except String Json := fun _ => .error ("ENOENT")

/-- A persistent store whose every read fails with an I/O fault. -/
def wDiskIoFault : String → Except String Json := fun _ => .error ("EIO")

/-- Sample account address parameter. -/
def daiAddr : String := "0x6b175474e89094c44da98b954eedeac495271d0f"

/-- Sample storage position parameter. -/
def daiPos : String := "0x1"

/-- Sample raw storage value returned by the transport. -/
def resp1Str : String := "0x00000000000000000000000000000000000000000067bafa8fb7228f04ffa792"

/-- A transport that always succeeds with the sample storage value. -/
def okTransport : Nat → Except JsThrown Json := fun _ => .ok (.str resp1Str)

/-- A transport that always succeeds with a payload the data decoder
rejects. -/
def badRawTransport : Nat → Except JsThrown Json := fun _ => .ok (.num 5)

/-- A transport that always answers JSON null (entity not found). -/
def nullTransport : Nat → Except JsThrown Json := fun _ => .ok .null

/-- An endpoint address containing the flaky-provider marker. -/
def infuraUrl : String := "http://infura.com"

/-- The transient failure thrown by the flaky provider. -/
def headerErr : JsThrown := .errorInstance headerNotFoundMarker

/-- A transport that throws the transient failure once and then
succeeds. -/
def retryTransport : Nat → Except JsThrown Json := fun idx =>
  match idx with
  | 0 => .error headerErr
  | _ => .ok (.str resp1Str)

/-- A transport whose rejection carries the transient message but is not
an Error instance. -/
def nonErrTransport : Nat → Except JsThrown Json := fun _ =>
  .error (.nonError headerNotFoundMarker)

/-- First storage read at block 121 (inside the reorg window) against a
fresh client. -/
def c3First121 : PerformOutcome String :=
  getStorageAt wCfg [] false wNoDisk okTransport daiAddr daiPos 121

/-- Repeat of the identical block-121 request against the resulting
state. -/
def c3Second121 : PerformOutcome String :=
  getStorageAt wCfg c3First121.cache c3First121.folderCreated wNoDisk okTransport
    daiAddr daiPos 121

/-- First storage read at block 120 (outside the reorg window) against a
fresh client. -/
def c3First120 : PerformOutcome String :=
  getStorageAt wCfg [] false wNoDisk okTransport daiAddr daiPos 120

/-- Repeat of the identical block-120 request against the resulting
state. -/
def c3Second120 : PerformOutcome String :=
  getStorageAt wCfg c3First120.cache c3First120.folderCreated wNoDisk okTransport
    daiAddr daiPos 120

/-- Sample transaction hash parameter. -/
def txHash1 : String := "0xc008e9f9bb92057dd0035496fbf4fb54f66b4b18b370928e46d6603933054d5a"

/-- Sample block hash parameter. -/
def blockHash1 : String := "0x71d5e7c8ff9ea737034c16e333a75575a4a94d29482e0c2b88f0a6a8369c1812"

/-- Transaction lookup answered with null by the transport. -/
def c8TxFirst : PerformOutcome (Option RpcTransaction) :=
  getTransactionByHash wCfgDisk [] false wNoDisk nullTransport txHash1

/-- Repeat of the identical transaction lookup. -/
def c8TxSecond : PerformOutcome (Option RpcTransaction) :=
  getTransactionByHash wCfgDisk c8TxFirst.cache c8TxFirst.folderCreated wNoDisk
    nullTransport txHash1

/-- Receipt lookup answered with null by the transport. -/
def c8RcptFirst : PerformOutcome (Option RpcTransaction) :=
  getTransactionReceipt wCfgDisk [] false wNoDisk nullTransport txHash1

/-- Repeat of the identical receipt lookup. -/
def c8RcptSecond : PerformOutcome (Option RpcTransaction) :=
  getTransactionReceipt wCfgDisk c8RcptFirst.cache c8RcptFirst.folderCreated wNoDisk
    nullTransport txHash1

/-- Block-by-hash lookup answered with null by the transport. -/
def c8BlockFirst : PerformOutcome (Option RpcBlock) :=
  getBlockByHash wCfgDisk [] false wNoDisk nullTransport blockHash1

/-- Repeat of the identical block-by-hash lookup. -/
def c8BlockSecond : PerformOutcome (Option RpcBlock) :=
  getBlockByHash wCfgDisk c8BlockFirst.cache c8BlockFirst.folderCreated wNoDisk
    nullTransport blockHash1

/-- Method name of the account-code member of the account-data batch. -/
def mGetCode : String := "eth_getCode"

/-- Method name of the nonce member of the account-data batch. -/
def mGetTxCount : String := "eth_getTransactionCount"

/-- Method name of the balance member of the account-data batch. -/
def mGetBalance : String := "eth_getBalance"

/-- Shared parameter list of the account-data batch members. -/
def acctParams : List Json := [.str daiAddr, .str ("0x78")]

/-- The account-data batch: code, transaction count and balance at one
block. -/
def wBatch : List (BatchEntry String) :=
  [⟨mGetCode, acctParams, decodeData⟩, ⟨mGetTxCount, acctParams, decodeData⟩,
    ⟨mGetBalance, acctParams, decodeData⟩]

/-- Raw batch results delivered by the batch transport. -/
def wBatchRaws : List Json := [.str ("0xc0de"), .str ("0x1"), .str ("0x0")]

/-- A batch transport that always succeeds with the sample results. -/
def wBatchTransport : Nat → Except JsThrown (List Json) := fun _ => .ok wBatchRaws

/-- On a retry call the retry predicate is constantly false: the source
retries with isRetryCall set to true, so a failure of the retry itself is
final.  This justifies inlining the recursive retry in `send`. -/
theorem shouldRetry_retryCall_false (url : String) (err : JsThrown) :
    shouldRetry true url err = false := by
  simp [shouldRetry]

/-- A successful transport call is returned as is after one call. -/
theorem send_ok (url : String) (transport : Nat → Except JsThrown Json)
    (isRetryCall : Bool) (idx : Nat) (r : Json) (h : transport idx = .ok r) :
    send url transport isRetryCall idx = (.ok r, 1) := by
  simp [send, h]

/-- A failure the retry predicate rejects propagates unchanged after one
call. -/
theorem send_noRetry (url : String) (transport : Nat → Except JsThrown Json)
    (isRetryCall : Bool) (idx : Nat) (err : JsThrown)
    (h : transport idx = .error err) (hr : shouldRetry isRetryCall url err = false) :
    send url transport isRetryCall idx = (.error err, 1) := by
  simp [send, h, hr]

/-- A failure the retry predicate accepts leads to exactly one further
transport call whose outcome, success or failure, is final. -/
theorem send_retry (url : String) (transport : Nat → Except JsThrown Json)
    (isRetryCall : Bool) (idx : Nat) (err : JsThrown)
    (h : transport idx = .error err) (hr : shouldRetry isRetryCall url err = true) :
    send url transport isRetryCall idx = (transport (idx + 1), 2) := by
  cases h2 : transport (idx + 1) <;> simp [send, h, hr, h2]

/-- Batch analogue of `send_ok`. -/
theorem sendBatch_ok (url : String) (transport : Nat → Except JsThrown (List Json))
    (isRetryCall : Bool) (idx : Nat) (rs : List Json) (h : transport idx = .ok rs) :
    sendBatch url transport isRetryCall idx = (.ok rs, 1) := by
  simp [sendBatch, h]

/-- Unfolding of `perform` on the transport path: memory miss, disk miss,
transport success, decode success.  The outcome depends only on the
verdict of the eligibility policy and on whether persistent caching is
enabled. -/
theorem perform_transport_path {V : Type} (cfg : ClientConfig)
    (cache : List (String × V)) (folderCreated : Bool)
    (diskRead : String → Except String Json) (transport : Nat → Except JsThrown Json)
    (method : String) (params : List Json) (decode : Json → Except String V)
    (getMax : V → Option Int) (raw : Json) (v : V)
    (h1 : getFromCache cache (getCacheKey cfg.networkId method params) = none)
    (h2 : getRawFromDiskCache cfg diskRead (getCacheKey cfg.networkId method params) = none)
    (h3 : transport 0 = .ok raw) (h4 : decode raw = .ok v) :
    perform cfg cache folderCreated diskRead transport method params decode getMax =
      if canBeCached cfg (getMax v) then
        if isCacheToDiskEnabled cfg then
          ⟨.ok v, storeInCache cache (getCacheKey cfg.networkId method params) v, true,
            [(getCacheKey cfg.networkId method params, raw)], 1, 1⟩
        else
          ⟨.ok v, storeInCache cache (getCacheKey cfg.networkId method params) v,
            folderCreated, [], 1, 1⟩
      else
        ⟨.ok v, cache, folderCreated, [], 1, 1⟩ := by
  simp [perform, getFromDiskCache, h1, h2, h3, h4, send]

/-- Unfolding of `perform` when the transport succeeds but the decoder
rejects the raw payload. -/
theorem perform_decode_failure {V : Type} (cfg : ClientConfig)
    (cache : List (String × V)) (folderCreated : Bool)
    (diskRead : String → Except String Json) (transport : Nat → Except JsThrown Json)
    (method : String) (params : List Json) (decode : Json → Except String V)
    (getMax : V → Option Int) (raw : Json) (e : String)
    (h1 : getFromCache cache (getCacheKey cfg.networkId method params) = none)
    (h2 : getRawFromDiskCache cfg diskRead (getCacheKey cfg.networkId method params) = none)
    (h3 : transport 0 = .ok raw) (h4 : decode raw = .error e) :
    perform cfg cache folderCreated diskRead transport method params decode getMax =
      ⟨.error (.decodeFailure e), cache, folderCreated, [], 1, 1⟩ := by
  simp [perform, getFromDiskCache, h1, h2, h3, h4, send]

/-- Unfolding of `performBatch` on the transport path: memory miss, raw
disk miss, batch transport success, positional decode success. -/
theorem performBatch_transport_path {V : Type} (cfg : ClientConfig)
    (cache : List (String × List V)) (folderCreated : Bool)
    (diskRead : String → Except String Json)
    (transportB : Nat → Except JsThrown (List Json)) (batch : List (BatchEntry V))
    (getMax : List V → Option Int) (raws : List Json) (vs : List V)
    (h1 : getFromCache cache
      (getBatchCacheKey cfg.networkId (batch.map (fun b => (b.method, b.params)))) = none)
    (h2 : getRawFromDiskCache cfg diskRead
      (getBatchCacheKey cfg.networkId (batch.map (fun b => (b.method, b.params)))) = none)
    (h3 : transportB 0 = .ok raws) (h4 : decodeAll batch raws = .ok vs) :
    performBatch cfg cache folderCreated diskRead transportB batch getMax =
      if canBeCached cfg (getMax vs) then
        if isCacheToDiskEnabled cfg then
          ⟨.ok vs,
            storeInCache cache
              (getBatchCacheKey cfg.networkId (batch.map (fun b => (b.method, b.params)))) vs,
            true,
            [(getBatchCacheKey cfg.networkId (batch.map (fun b => (b.method, b.params))),
              .arr raws)], 1, 1⟩
        else
          ⟨.ok vs,
            storeInCache cache
              (getBatchCacheKey cfg.networkId (batch.map (fun b => (b.method, b.params)))) vs,
            folderCreated, [], 1, 1⟩
      else
        ⟨.ok vs, cache, folderCreated, [], 1, 1⟩ := by
  simp [performBatch, getBatchFromDiskCache, h1, h2, h3, h4, sendBatch]

/-- Folding string concatenation from the left over the batch equals the
right fold that concatenates all member method names in sequence order. -/
theorem foldl_method_concat (l : List (String × List Json)) :
    ∀ acc : String,
      l.foldl (fun acc entry => acc ++ entry.1) acc =
        acc ++ (l.map Prod.fst).foldr (· ++ ·) "" := by
  induction l with
  | nil => intro acc; simp
  | cons x xs ih => intro acc; simp [ih, String.append_assoc]

/-- Folding list append from the left over the batch equals flattening
all member parameter lists in sequence order. -/
theorem foldl_params_flatten (l : List (String × List Json)) :
    ∀ acc : List Json,
      l.foldl (fun acc entry => acc ++ entry.2) acc =
        acc ++ (l.map Prod.snd).flatten := by
  induction l with
  | nil => intro acc; simp
  | cons x xs ih => intro acc; simp [ih]

/-- C1: the cache eligibility check returns false when the maximum
affected block number is absent, and otherwise returns true exactly when
the block number is at most the creation height minus the max reorg
depth; on the transport path a response whose maximum affected block
number lies strictly above that threshold is admitted to neither the
in-memory cache nor the persistent store. -/
theorem cacheEligibilityPolicy_spec :
    (∀ cfg : ClientConfig, canBeCached cfg none = false) ∧
    (∀ (cfg : ClientConfig) (b : Int),
      canBeCached cfg (some b) = true ↔
        b ≤ cfg.latestBlockNumberOnCreation - cfg.maxReorg) ∧
    (∀ (V : Type) (cfg : ClientConfig) (cache : List (String × V))
      (folderCreated : Bool) (diskRead : String → Except String Json)
      (transport : Nat → Except JsThrown Json) (method : String) (params : List Json)
      (decode : Json → Except String V) (getMax : V → Option Int) (raw : Json) (v : V)
      (b : Int),
      getFromCache cache (getCacheKey cfg.networkId method params) = none →
      getRawFromDiskCache cfg diskRead (getCacheKey cfg.networkId method params) = none →
      transport 0 = .ok raw → decode raw = .ok v → getMax v = some b →
      cfg.latestBlockNumberOnCreation - cfg.maxReorg < b →
      (perform cfg cache folderCreated diskRead transport method params decode
          getMax).cache = cache ∧
        (perform cfg cache folderCreated diskRead transport method params decode
          getMax).diskWrites = []) := by
  refine ⟨fun cfg => rfl, ?_, ?_⟩
  · intro cfg b
    simp only [canBeCached, canBeReorgedOut, Bool.not_eq_true', decide_eq_false_iff_not]
    omega
  · intro V cfg cache fc diskRead transport method params decode getMax raw v b h1 h2 h3
      h4 h5 h6
    have hc : canBeCached cfg (some b) = false := by
      simp only [canBeCached, canBeReorgedOut, Bool.not_eq_false', decide_eq_true_eq]
      omega
    rw [perform_transport_path cfg cache fc diskRead transport method params decode getMax
      raw v h1 h2 h3 h4, h5, hc]
    simp

/-- Witness for C1: the block-121 storage read against the height-123,
reorg-depth-3 client is admitted to neither cache. -/
theorem cacheEligibilityPolicy_spec_witness :
    (perform wCfg ([] : List (String × String)) false wNoDisk okTransport
        methodGetStorageAt [.str daiAddr, .str daiPos, .str (numberToRpcQuantity 121)]
        decodeData (fun _ => some 121)).cache = [] ∧
      (perform wCfg ([] : List (String × String)) false wNoDisk okTransport
        methodGetStorageAt [.str daiAddr, .str daiPos, .str (numberToRpcQuantity 121)]
        decodeData (fun _ => some 121)).diskWrites = [] :=
  cacheEligibilityPolicy_spec.2.2 String wCfg [] false wNoDisk okTransport
    methodGetStorageAt [.str daiAddr, .str daiPos, .str (numberToRpcQuantity 121)]
    decodeData (fun _ => some 121) (.str resp1Str) resp1Str 121 rfl rfl rfl rfl rfl
    (by decide)

/-- C2: on a transport failure the executor retries exactly once, and
only when the call is not already a retry attempt, the configured
endpoint address contains the flaky-provider marker, and the failure
message contains "header not found"; any other failure, and any failure
of the retry itself, propagates unchanged with no further transport
call. -/
theorem retryPolicy_spec :
    (∀ (isRetryCall : Bool) (url : String) (err : JsThrown),
      shouldRetry isRetryCall url err = true →
        isRetryCall = false ∧ containsSubstr url infuraMarker = true ∧
          containsSubstr err.message headerNotFoundMarker = true) ∧
    (∀ (url : String) (err : JsThrown), shouldRetry true url err = false) ∧
    (∀ (url : String) (transport : Nat → Except JsThrown Json) (err : JsThrown),
      transport 0 = .error err → shouldRetry false url err = true →
        send url transport false 0 = (transport 1, 2)) ∧
    (∀ (url : String) (transport : Nat → Except JsThrown Json) (err : JsThrown),
      transport 0 = .error err → shouldRetry false url err = false →
        send url transport false 0 = (.error err, 1)) := by
  refine ⟨?_, shouldRetry_retryCall_false, ?_, ?_⟩
  · intro isR url err h
    simp only [shouldRetry, Bool.and_eq_true, Bool.not_eq_true'] at h
    exact ⟨h.1.1.1, h.1.1.2, h.2⟩
  · intro url transport err h hr
    simpa using send_retry url transport false 0 err h hr
  · intro url transport err h hr
    exact send_noRetry url transport false 0 err h hr

/-- Witness for C2: against the flaky-provider endpoint, a first
"header not found" failure leads to the second transport outcome being
returned after exactly two calls. -/
theorem retryPolicy_spec_witness :
    send infuraUrl retryTransport false 0 = (retryTransport 1, 2) :=
  retryPolicy_spec.2.2.1 infuraUrl retryTransport headerErr rfl (by decide)

/-- C10: a transport rejection whose thrown value is not an Error
instance is never retried and propagates immediately after a single
call, whatever the endpoint address and the message property say. -/
theorem nonErrorNeverRetried_spec :
    (∀ (isRetryCall : Bool) (url : String) (msg : String),
      shouldRetry isRetryCall url (.nonError msg) = false) ∧
    (∀ (url : String) (transport : Nat → Except JsThrown Json) (msg : String),
      transport 0 = .error (.nonError msg) →
        send url transport false 0 = (.error (.nonError msg), 1)) := by
  constructor
  · intro isR url msg
    simp [shouldRetry, JsThrown.isErrorInstance]
  · intro url transport msg h
    exact send_noRetry url transport false 0 _ h
      (by simp [shouldRetry, JsThrown.isErrorInstance])

/-- Witness for C10: a non-Error rejection carrying the transient message
against the flaky-provider endpoint propagates after one call. -/
theorem nonErrorNeverRetried_spec_witness :
    send infuraUrl nonErrTransport false 0 =
      (.error (.nonError headerNotFoundMarker), 1) :=
  nonErrorNeverRetried_spec.2 infuraUrl nonErrTransport headerNotFoundMarker rfl

/-- C3: with creation height 123 and max reorg depth 3, the block-121
storage read is never cached — the repeated identical request invokes
the transport again and the cache stays empty — while the block-120 read
is cached after the first successful call: the repeated request returns
the cached decoded value with zero transport calls and zero decode
passes. -/
theorem reorgWindowExclusion_spec :
    c3First121.transportCalls = 1 ∧ c3First121.result = .ok resp1Str ∧
    c3First121.cache = [] ∧
    c3Second121.transportCalls = 1 ∧ c3Second121.cache = [] ∧
    c3First120.transportCalls = 1 ∧ c3First120.result = .ok resp1Str ∧
    c3Second120.transportCalls = 0 ∧ c3Second120.decodeCalls = 0 ∧
    c3Second120.result = .ok resp1Str :=
  ⟨rfl, rfl, rfl, rfl, rfl, rfl, rfl, rfl, rfl, rfl⟩

/-- C4: cache key derivation is deterministic and depends on nothing but
the network id, the method name and the serialized parameter list; keys
for inputs differing in network id, method name, a parameter value or
the parameter order come out different. -/
theorem cacheKeyDeterminism_spec :
    (∀ (networkId : Nat) (method : String) (params : List Json),
      getCacheKey networkId method params = getCacheKey networkId method params) ∧
    (∀ (networkId : Nat) (method : String) (params paramsB : List Json),
      Json.stringify (.arr params) = Json.stringify (.arr paramsB) →
        getCacheKey networkId method params = getCacheKey networkId method paramsB) ∧
    getCacheKey 1 methodGetStorageAt acctParams ≠
      getCacheKey 2 methodGetStorageAt acctParams ∧
    getCacheKey 1 mGetCode acctParams ≠ getCacheKey 1 mGetBalance acctParams ∧
    getCacheKey 1 methodGetStorageAt [.str daiAddr, .str daiPos, .str ("0x6e")] ≠
      getCacheKey 1 methodGetStorageAt [.str daiAddr, .str daiPos, .str ("0x78")] ∧
    getCacheKey 1 methodGetStorageAt [.str daiAddr, .str daiPos] ≠
      getCacheKey 1 methodGetStorageAt [.str daiPos, .str daiAddr] := by
  refine ⟨fun _ _ _ => rfl, ?_, by decide, by decide, by decide, by decide⟩
  intro nid m ps psB h
  simp [getCacheKey, h]

/-- Witness for C4: two structurally equal parameter lists serialize
identically and so derive the same key. -/
theorem cacheKeyDeterminism_spec_witness :
    getCacheKey 1 methodGetStorageAt acctParams =
      getCacheKey 1 methodGetStorageAt acctParams :=
  cacheKeyDeterminism_spec.2.1 1 methodGetStorageAt acctParams acctParams rfl

/-- C8: a transaction, receipt, or block-by-hash lookup answered with
null yields an absent result rather than an error, is admitted to
neither cache even though persistent caching is configured (its affected
block number is absent, so the eligibility check is false), and a
repeated identical lookup invokes the transport again. -/
theorem notFoundMapping_spec :
    canBeCached wCfgDisk none = false ∧
    c8TxFirst.result = .ok none ∧ c8TxFirst.cache = [] ∧
    c8TxFirst.diskWrites = [] ∧ c8TxFirst.transportCalls = 1 ∧
    c8TxSecond.transportCalls = 1 ∧
    c8RcptFirst.result = .ok none ∧ c8RcptFirst.cache = [] ∧
    c8RcptFirst.diskWrites = [] ∧ c8RcptSecond.transportCalls = 1 ∧
    c8BlockFirst.result = .ok none ∧ c8BlockFirst.cache = [] ∧
    c8BlockFirst.diskWrites = [] ∧ c8BlockSecond.transportCalls = 1 :=
  ⟨rfl, rfl, rfl, rfl, rfl, rfl, rfl, rfl, rfl, rfl, rfl, rfl, rfl, rfl⟩

/-- A failing persistent-store read is a miss whatever the configured
path is: with a path the catch swallows the failure, without one the
path computation itself fails and is swallowed by the same catch. -/
theorem getRawFromDiskCache_error (cfg : ClientConfig)
    (diskRead : String → Except String Json) (key e : String)
    (h : diskRead key = .error e) : getRawFromDiskCache cfg diskRead key = none := by
  cases hp : cfg.forkCachePath <;> simp [getRawFromDiskCache, hp, h]

/-- C6: when decoding a raw transport result fails, the error propagates
to the caller and neither cache changes: the in-memory cache is left
untouched and nothing is written to the persistent store. -/
theorem decodeFailureAtomicity_spec :
    ∀ (V : Type) (cfg : ClientConfig) (cache : List (String × V)) (folderCreated : Bool)
      (diskRead : String → Except String Json) (transport : Nat → Except JsThrown Json)
      (method : String) (params : List Json) (decode : Json → Except String V)
      (getMax : V → Option Int) (raw : Json) (e : String),
      getFromCache cache (getCacheKey cfg.networkId method params) = none →
      getRawFromDiskCache cfg diskRead (getCacheKey cfg.networkId method params) = none →
      transport 0 = .ok raw → decode raw = .error e →
      (perform cfg cache folderCreated diskRead transport method params decode
          getMax).result = .error (.decodeFailure e) ∧
        (perform cfg cache folderCreated diskRead transport method params decode
          getMax).cache = cache ∧
        (perform cfg cache folderCreated diskRead transport method params decode
          getMax).diskWrites = [] := by
  intro V cfg cache fc diskRead transport method params decode getMax raw e h1 h2 h3 h4
  rw [perform_decode_failure cfg cache fc diskRead transport method params decode getMax
    raw e h1 h2 h3 h4]
  exact ⟨rfl, rfl, rfl⟩

/-- Witness for C6: a payload the data decoder rejects propagates as a
decode failure and leaves both caches untouched, persistent caching
configured or not. -/
theorem decodeFailureAtomicity_spec_witness :
    (perform wCfgDisk ([] : List (String × String)) false wNoDisk badRawTransport
        methodGetStorageAt [.str daiAddr, .str daiPos, .str (numberToRpcQuantity 100)]
        decodeData (fun _ => some 100)).result =
        .error (.decodeFailure ("invalid rpc data")) ∧
      (perform wCfgDisk ([] : List (String × String)) false wNoDisk badRawTransport
        methodGetStorageAt [.str daiAddr, .str daiPos, .str (numberToRpcQuantity 100)]
        decodeData (fun _ => some 100)).cache = [] ∧
      (perform wCfgDisk ([] : List (String × String)) false wNoDisk badRawTransport
        methodGetStorageAt [.str daiAddr, .str daiPos, .str (numberToRpcQuantity 100)]
        decodeData (fun _ => some 100)).diskWrites = [] :=
  decodeFailureAtomicity_spec String wCfgDisk [] false wNoDisk badRawTransport
    methodGetStorageAt [.str daiAddr, .str daiPos, .str (numberToRpcQuantity 100)]
    decodeData (fun _ => some 100) (.num 5) ("invalid rpc data") rfl rfl rfl rfl

/-- C7: a persistent-store read failure is treated as a cache miss — the
raw read yields nothing — so the call falls through to the transport and
returns its decoded result; the read failure is never surfaced. -/
theorem diskReadFailureIsMiss_spec :
    (∀ (cfg : ClientConfig) (diskRead : String → Except String Json) (key e : String),
      diskRead key = .error e → getRawFromDiskCache cfg diskRead key = none) ∧
    (∀ (V : Type) (cfg : ClientConfig) (cache : List (String × V)) (folderCreated : Bool)
      (diskRead : String → Except String Json) (transport : Nat → Except JsThrown Json)
      (method : String) (params : List Json) (decode : Json → Except String V)
      (getMax : V → Option Int) (raw : Json) (v : V) (e : String),
      getFromCache cache (getCacheKey cfg.networkId method params) = none →
      diskRead (getCacheKey cfg.networkId method params) = .error e →
      transport 0 = .ok raw → decode raw = .ok v →
      (perform cfg cache folderCreated diskRead transport method params decode
          getMax).result = .ok v ∧
        (perform cfg cache folderCreated diskRead transport method params decode
          getMax).transportCalls = 1) := by
  constructor
  · exact getRawFromDiskCache_error
  · intro V cfg cache fc diskRead transport method params decode getMax raw v e h1 hd h3 h4
    have h2 := getRawFromDiskCache_error cfg diskRead
      (getCacheKey cfg.networkId method params) e hd
    rw [perform_transport_path cfg cache fc diskRead transport method params decode getMax
      raw v h1 h2 h3 h4]
    cases hc : canBeCached cfg (getMax v) <;> cases he : isCacheToDiskEnabled cfg <;>
      simp [hc, he]

/-- Witness for C7: with every disk read failing with an I/O fault, the
storage read is served by the transport. -/
theorem diskReadFailureIsMiss_spec_witness :
    (perform wCfgDisk ([] : List (String × String)) false wDiskIoFault okTransport
        methodGetStorageAt [.str daiAddr, .str daiPos, .str (numberToRpcQuantity 100)]
        decodeData (fun _ => some 100)).result = .ok resp1Str ∧
      (perform wCfgDisk ([] : List (String × String)) false wDiskIoFault okTransport
        methodGetStorageAt [.str daiAddr, .str daiPos, .str (numberToRpcQuantity 100)]
        decodeData (fun _ => some 100)).transportCalls = 1 :=
  diskReadFailureIsMiss_spec.2 String wCfgDisk [] false wDiskIoFault okTransport
    methodGetStorageAt [.str daiAddr, .str daiPos, .str (numberToRpcQuantity 100)]
    decodeData (fun _ => some 100) (.str resp1Str) resp1Str ("EIO") rfl rfl rfl rfl

/-- C9: when the eligibility policy accepts, the decoded value (not the
raw payload) is stored in the in-memory cache under the derived key and —
exactly when a persistent-cache path is configured — the raw undecoded
payload (not the decoded value) is written to the persistent store under
the same key; when the policy rejects, neither store is written. -/
theorem cacheWriteDiscipline_spec :
    ∀ (V : Type) (cfg : ClientConfig) (cache : List (String × V)) (folderCreated : Bool)
      (diskRead : String → Except String Json) (transport : Nat → Except JsThrown Json)
      (method : String) (params : List Json) (decode : Json → Except String V)
      (getMax : V → Option Int) (raw : Json) (v : V),
      getFromCache cache (getCacheKey cfg.networkId method params) = none →
      getRawFromDiskCache cfg diskRead (getCacheKey cfg.networkId method params) = none →
      transport 0 = .ok raw → decode raw = .ok v →
      (canBeCached cfg (getMax v) = true →
        (perform cfg cache folderCreated diskRead transport method params decode
            getMax).cache =
            storeInCache cache (getCacheKey cfg.networkId method params) v ∧
          (perform cfg cache folderCreated diskRead transport method params decode
            getMax).diskWrites =
            (if isCacheToDiskEnabled cfg then
              [(getCacheKey cfg.networkId method params, raw)]
            else [])) ∧
      (canBeCached cfg (getMax v) = false →
        (perform cfg cache folderCreated diskRead transport method params decode
            getMax).cache = cache ∧
          (perform cfg cache folderCreated diskRead transport method params decode
            getMax).diskWrites = []) := by
  intro V cfg cache fc diskRead transport method params decode getMax raw v h1 h2 h3 h4
  rw [perform_transport_path cfg cache fc diskRead transport method params decode getMax
    raw v h1 h2 h3 h4]
  constructor
  · intro hc
    cases he : isCacheToDiskEnabled cfg <;> simp [hc, he]
  · intro hc
    simp [hc]

/-- Witness for C9: the block-120 storage read against the persistent
client stores the decoded value in memory and the raw payload on disk
under the same key. -/
theorem cacheWriteDiscipline_spec_witness :
    (perform wCfgDisk ([] : List (String × String)) false wNoDisk okTransport
        methodGetStorageAt [.str daiAddr, .str daiPos, .str (numberToRpcQuantity 120)]
        decodeData (fun _ => some 120)).cache =
        storeInCache []
          (getCacheKey wCfgDisk.networkId methodGetStorageAt
            [.str daiAddr, .str daiPos, .str (numberToRpcQuantity 120)]) resp1Str ∧
      (perform wCfgDisk ([] : List (String × String)) false wNoDisk okTransport
        methodGetStorageAt [.str daiAddr, .str daiPos, .str (numberToRpcQuantity 120)]
        decodeData (fun _ => some 120)).diskWrites =
        (if isCacheToDiskEnabled wCfgDisk then
          [(getCacheKey wCfgDisk.networkId methodGetStorageAt
            [.str daiAddr, .str daiPos, .str (numberToRpcQuantity 120)], .str resp1Str)]
        else []) :=
  (cacheWriteDiscipline_spec String wCfgDisk [] false wNoDisk okTransport
    methodGetStorageAt [.str daiAddr, .str daiPos, .str (numberToRpcQuantity 120)]
    decodeData (fun _ => some 120) (.str resp1Str) resp1Str rfl rfl rfl rfl).1 (by decide)

/-- C5: the batch cache key hashes the concatenation of all member
method names in sequence order and the flattening of all member
parameter lists in sequence order; it differs from the keys of the
individual member calls; the batch is looked up and cached as one atomic
unit under that single key, all-or-nothing, with the eligibility policy
evaluated once on the maximum affected block number across all
members. -/
theorem batchKeyAtomicity_spec :
    (∀ (networkId : Nat) (batch : List (String × List Json)),
      getBatchCacheKey networkId batch =
        getCacheKey networkId ((batch.map Prod.fst).foldr (· ++ ·) "")
          ((batch.map Prod.snd).flatten)) ∧
    getBatchCacheKey 1 (wBatch.map (fun b => (b.method, b.params))) ≠
      getCacheKey 1 mGetCode acctParams ∧
    getBatchCacheKey 1 (wBatch.map (fun b => (b.method, b.params))) ≠
      getCacheKey 1 mGetTxCount acctParams ∧
    (∀ (V : Type) (cfg : ClientConfig) (cache : List (String × List V)) (vs : List V)
      (folderCreated : Bool) (diskRead : String → Except String Json)
      (transportB : Nat → Except JsThrown (List Json)) (batch : List (BatchEntry V))
      (getMax : List V → Option Int),
      getFromCache cache (getBatchCacheKey cfg.networkId
        (batch.map (fun b => (b.method, b.params)))) = some vs →
      (performBatch cfg cache folderCreated diskRead transportB batch getMax).result =
          .ok vs ∧
        (performBatch cfg cache folderCreated diskRead transportB batch
          getMax).transportCalls = 0) ∧
    (∀ (V : Type) (cfg : ClientConfig) (cache : List (String × List V))
      (folderCreated : Bool) (diskRead : String → Except String Json)
      (transportB : Nat → Except JsThrown (List Json)) (batch : List (BatchEntry V))
      (getMax : List V → Option Int) (raws : List Json) (vs : List V),
      getFromCache cache (getBatchCacheKey cfg.networkId
        (batch.map (fun b => (b.method, b.params)))) = none →
      getRawFromDiskCache cfg diskRead (getBatchCacheKey cfg.networkId
        (batch.map (fun b => (b.method, b.params)))) = none →
      transportB 0 = .ok raws → decodeAll batch raws = .ok vs →
      (canBeCached cfg (getMax vs) = true →
        (performBatch cfg cache folderCreated diskRead transportB batch getMax).cache =
            storeInCache cache (getBatchCacheKey cfg.networkId
              (batch.map (fun b => (b.method, b.params)))) vs ∧
          (performBatch cfg cache folderCreated diskRead transportB batch
            getMax).diskWrites =
            (if isCacheToDiskEnabled cfg then
              [(getBatchCacheKey cfg.networkId
                (batch.map (fun b => (b.method, b.params))), .arr raws)]
            else [])) ∧
      (canBeCached cfg (getMax vs) = false →
        (performBatch cfg cache folderCreated diskRead transportB batch getMax).cache =
            cache ∧
          (performBatch cfg cache folderCreated diskRead transportB batch
            getMax).diskWrites = [])) := by
  refine ⟨?_, by decide, by decide, ?_, ?_⟩
  · intro nid batch
    simp [getBatchCacheKey, foldl_method_concat, foldl_params_flatten]
  · intro V cfg cache vs fc diskRead transportB batch getMax h
    constructor <;> simp [performBatch, h]
  · intro V cfg cache fc diskRead transportB batch getMax raws vs h1 h2 h3 h4
    rw [performBatch_transport_path cfg cache fc diskRead transportB batch getMax raws vs
      h1 h2 h3 h4]
    constructor
    · intro hc
      cases he : isCacheToDiskEnabled cfg <;> simp [hc, he]
    · intro hc
      simp [hc]

/-- Witness for C5: the account-data batch, eligible at block 100, is
stored whole under its single batch key. -/
theorem batchKeyAtomicity_spec_witness :
    (performBatch wCfg ([] : List (String × List String)) false wNoDisk wBatchTransport
        wBatch (fun _ => some 100)).cache =
      storeInCache []
        (getBatchCacheKey wCfg.networkId (wBatch.map (fun b => (b.method, b.params))))
        [("0xc0de" : String), ("0x1"), ("0x0")] :=
  ((batchKeyAtomicity_spec.2.2.2.2 String wCfg [] false wNoDisk wBatchTransport wBatch
    (fun _ => some 100) wBatchRaws [("0xc0de"), ("0x1"), ("0x0")]
    rfl rfl rfl rfl).1 (by decide)).1
